import Mathlib

/-!
Shallow embedding of `src/api.py` (the PageIndex FastAPI service): the
`POST /run` handler with its filename validation, filename sanitization,
temporary-file staging, JSON response shaping, and guaranteed cleanup, plus
the JSON serialization of the extraction result and a verified JSON reader
used to state round-trip fidelity of the response body.
-/

set_option maxHeartbeats 1000000

namespace Api

/-- Embedding of Python `str.isalnum`, on the ASCII fragment
(`Char.isAlphanum` accepts exactly `0-9`, `A-Z`, `a-z`). -/
def pyIsAlnum (c : Char) : Bool := c.isAlphanum

/-- Per-character test of `api.py` line 65: `c.isalnum() or c in "._- "`. -/
def allowedChar (c : Char) : Bool :=
  pyIsAlnum c || c = '.' || c = '_' || c = '-' || c = ' '

/-- ASCII embedding of Python `str.lower`, applied characterwise. -/
def pyToLower (c : Char) : Char :=
  if 'A' ≤ c ∧ c ≤ 'Z' then Char.ofNat (c.toNat + 32) else c

/-- ASCII embedding of Python `str.lower` on strings. -/
def pyLower (s : String) : String := String.mk (s.data.map pyToLower)

/-- Embedding of Python `str.endswith`. -/
def pyEndswith (s suf : String) : Bool := suf.data.isSuffixOf s.data

/-- Line 65 of `api.py`: keep only the allowed characters; Python `or` then
substitutes `"upload.pdf"` exactly when the filtered string is empty (the
empty string is falsy). -/
def safeNameBase (filename : String) : String :=
  let t := String.mk (filename.data.filter allowedChar)
  if t = "" then "upload.pdf" else t

/-- Lines 65-67 of `api.py`: the staged file name after the
append-extension-when-missing step. -/
def safeName (filename : String) : String :=
  let base := safeNameBase filename
  if pyEndswith (pyLower base) ".pdf" then base else base ++ ".pdf"

/-- Line 47 of `api.py`: `file.filename or "unknown"` (both `None` and the
empty string are falsy in Python). -/
def pyOr (s : Option String) (d : String) : String :=
  match s with
  | none => d
  | some t => if t = "" then d else t

/-- Embedding of `os.path.join(temp_dir, safe_name)` for the names produced
here: the sanitized name never contains `/`, in particular it never starts
with one, so the POSIX join is plain concatenation with a separator. -/
def pyJoin (d n : String) : String := d ++ "/" ++ n

/-- Modelled from the spec: the hierarchical table-of-contents structure
returned by the external extraction entry point `page_index_main` (the
`pageindex` package is not part of this source set). Each entry carries a
title and a page number, plus an ordered list of nested child entries. -/
inductive TocNode : Type where
  | mk (title : String) (page : Nat) (nodes : List TocNode)

/-- Lowercase hexadecimal digit, as CPython formats `\u%04x` escapes. -/
def hexDigit (n : Nat) : Char :=
  if n < 10 then Char.ofNat (48 + n) else Char.ofNat (87 + n)

/-- Embedding of the CPython `json` string escaper with `ensure_ascii=False`:
only the quote, the backslash and control characters below `0x20` are
escaped; every other character, non-ASCII included, passes through
verbatim. -/
def escChar (c : Char) : List Char :=
  if c = '"' then ['\\', '"']
  else if c = '\\' then ['\\', '\\']
  else if c = Char.ofNat 8 then ['\\', 'b']
  else if c = Char.ofNat 9 then ['\\', 't']
  else if c = Char.ofNat 10 then ['\\', 'n']
  else if c = Char.ofNat 12 then ['\\', 'f']
  else if c = Char.ofNat 13 then ['\\', 'r']
  else if c.toNat < 32 then
    ['\\', 'u', '0', '0', hexDigit (c.toNat / 16), hexDigit (c.toNat % 16)]
  else [c]

/-- JSON serialization of a string: quoted, characters escaped. -/
def encString (s : String) : List Char :=
  '"' :: (s.data.flatMap escChar ++ ['"'])

/-- Decimal digits of `n`, most significant first, as `json.dumps` renders a
non-negative integer. -/
def natDigits (n : Nat) : List Char :=
  if h : n < 10 then [Char.ofNat (48 + n)]
  else natDigits (n / 10) ++ [Char.ofNat (48 + n % 10)]
decreasing_by exact Nat.div_lt_self (by omega) (by omega)

/-- Newline followed by `2 * lvl` spaces, as `json.dumps(..., indent=2)`
inserts around items nested at depth `lvl`. -/
def nl (lvl : Nat) : List Char := '\n' :: List.replicate (2 * lvl) ' '

mutual

/-- Embedding of `json.dumps` with `ensure_ascii=False, indent=2` on one
table-of-contents entry, rendered as the object
`{"title": ..., "page": ..., "nodes": [...]}` at nesting depth `lvl`. -/
def encNode (lvl : Nat) : TocNode → List Char
  | .mk title page nodes =>
    '{' :: (nl (lvl + 1) ++ encString "title" ++ (':' :: ' ' :: encString title) ++
      (',' :: nl (lvl + 1)) ++ encString "page" ++ (':' :: ' ' :: natDigits page) ++
      (',' :: nl (lvl + 1)) ++ encString "nodes" ++ (':' :: ' ' :: encToc (lvl + 1) nodes) ++
      nl lvl ++ ['}'])

/-- Embedding of `json.dumps` with `ensure_ascii=False, indent=2` on a list of
entries at nesting depth `lvl`; the empty list renders as `[]`. -/
def encToc (lvl : Nat) : List TocNode → List Char
  | [] => ['[', ']']
  | t :: ts =>
    '[' :: (nl (lvl + 1) ++ encNode (lvl + 1) t ++ encTocRest (lvl + 1) ts ++ nl lvl ++ [']'])

/-- Remaining elements of a non-empty list: a comma and newline before each. -/
def encTocRest (lvl : Nat) : List TocNode → List Char
  | [] => []
  | t :: ts => ',' :: (nl lvl ++ encNode lvl t ++ encTocRest lvl ts)

end

/-- Line 86 of `api.py`: `json.dumps(toc_with_page_number, ensure_ascii=False,
indent=2)`. -/
def pyJsonDumps (ts : List TocNode) : String := String.mk (encToc 0 ts)

/-- Filesystem state visible to the handler: the temporary directories and
staged file paths currently on disk. -/
structure FS where
  dirs : List String
  files : List String
deriving DecidableEq

/-- Observable side effects of one handler execution, in order. -/
inductive Event where
  | logInfo (msg : String)
  | logWarning (msg : String)
  | logError (msg : String)
  | readContent
  | mkdir (d : String)
  | writeFile (p : String)
  | callExtract (p : String)
  | unlink (p : String)
  | rmdir (d : String)
deriving DecidableEq

/-- Response produced by the handler: a FastAPI `Response` with a body and
media type, or an `HTTPException` carrying a status code and detail string. -/
inductive HttpResponse where
  | ok (status : Nat) (body : String) (mediaType : String)
  | httpError (status : Nat) (detail : String)
deriving DecidableEq

/-- Result of one handler execution: the response, the filesystem left
behind, and the event trace. -/
structure Outcome where
  response : HttpResponse
  fs : FS
  events : List Event
deriving DecidableEq

/-- One incoming `POST /run` request: the claimed filename (absent when the
client sent none) and the upload bytes. -/
structure Request where
  filename : Option String
  content : List Nat

/-- The `finally` block, lines 94-101 of `api.py`: if a temp directory was
created and is on disk, unlink the staged file when present, then remove the
directory; `cleanupOk = false` models the `OSError` branch, which only logs a
warning and leaves the response untouched. -/
def cleanupBlock (cleanupOk : Bool) (tempDir tempPath : Option String) (fs : FS) :
    FS × List Event :=
  match tempDir with
  | none => (fs, [])
  | some d =>
    if d ∈ fs.dirs then
      if cleanupOk then
        match tempPath with
        | some p =>
          if p ∈ fs.files then
            ({ dirs := fs.dirs.erase d, files := fs.files.erase p },
             [Event.unlink p, Event.rmdir d])
          else
            ({ fs with dirs := fs.dirs.erase d }, [Event.rmdir d])
        | none => ({ fs with dirs := fs.dirs.erase d }, [Event.rmdir d])
      else
        (fs, [Event.logWarning "Cleanup temp dir failed"])
    else (fs, [])

/-- Embedding of the `POST /run` handler, lines 42-101 of `api.py`.
`extract` is the external `page_index_main` call: it returns either the
result structure or, via `Except.error`, the string representation of the
exception it raised. `freshDir` is the unique directory name produced by
`tempfile.mkdtemp`; `writeErr`, when set, models an `OSError` raised while
staging the upload to disk; `cleanupOk` models whether the `finally` cleanup
succeeds. -/
def run (extract : String → Except String (List TocNode)) (freshDir : String)
    (writeErr : Option String) (cleanupOk : Bool) (req : Request) (fs : FS) : Outcome :=
  let filename := pyOr req.filename "unknown"
  if ¬ pyEndswith (pyLower filename) ".pdf" then
    -- lines 53-55: HTTPException(400) raised and re-raised as-is at line 90;
    -- the finally block sees temp_dir = None and does nothing
    { response := .httpError 400 "File must have a .pdf extension",
      fs := fs,
      events := [.logWarning ("Rejected non-PDF file: " ++ filename)] }
  else
    -- lines 57-60: the upload is read and logged
    let ev0 := [Event.readContent,
                Event.logInfo ("Request received: filename=" ++ filename ++
                  ", size_bytes=" ++ toString req.content.length)]
    -- line 63: tempfile.mkdtemp
    let fs1 : FS := { fs with dirs := freshDir :: fs.dirs }
    let name := safeName filename
    let path := pyJoin freshDir name
    match writeErr with
    | some msg =>
      -- staging raised: caught at line 91, converted to a 500 at line 93;
      -- the finally block sees the directory but no staged file
      let (fs2, cev) := cleanupBlock cleanupOk (some freshDir) (some path) fs1
      { response := .httpError 500 msg,
        fs := fs2,
        events := ev0 ++ [Event.mkdir freshDir,
                          Event.logError ("Request failed: " ++ msg)] ++ cev }
    | none =>
      let fsW : FS := { fs1 with files := path :: fs1.files }
      let ev1 := ev0 ++ [Event.mkdir freshDir, Event.writeFile path,
                         Event.logInfo ("Processing started: " ++ filename),
                         Event.callExtract path,
                         Event.logInfo "PageIndex finished"]
      match extract path with
      | .ok toc =>
        -- lines 85-87: serialize and return
        let (fs2, cev) := cleanupBlock cleanupOk (some freshDir) (some path) fsW
        { response := .ok 200 (pyJsonDumps toc) "application/json",
          fs := fs2,
          events := ev1 ++ [Event.logInfo ("Request finished: " ++ filename)] ++ cev }
      | .error e =>
        -- lines 91-93: logged, converted to a 500 whose detail is str(e)
        let (fs2, cev) := cleanupBlock cleanupOk (some freshDir) (some path) fsW
        { response := .httpError 500 e,
          fs := fs2,
          events := ev1 ++ [Event.logError ("Request failed: " ++ e)] ++ cev }

/-- JSON whitespace characters (the encoder emits only spaces and newlines). -/
def isWs (c : Char) : Bool := c = ' ' || c = '\n' || c = '\t' || c = '\r'

/-- Drop leading JSON whitespace. -/
def skipWs : List Char → List Char
  | [] => []
  | c :: r => if isWs c then skipWs r else c :: r

/-- Value of a lowercase hexadecimal digit. -/
def hexVal (c : Char) : Option Nat :=
  if '0' ≤ c ∧ c ≤ '9' then some (c.toNat - 48)
  else if 'a' ≤ c ∧ c ≤ 'f' then some (c.toNat - 87)
  else none

/-- Read the body of a JSON string up to (and consuming) the closing quote,
undoing the escapes the serializer can produce; returns the decoded
characters and the remaining input. -/
def parseStrAux : List Char → Option (List Char × List Char)
  | [] => none
  | c :: r =>
    if c = '"' then some ([], r)
    else if c = '\\' then
      match r with
      | [] => none
      | e :: r2 =>
        if e = '"' then (parseStrAux r2).map (fun p => ('"' :: p.1, p.2))
        else if e = '\\' then (parseStrAux r2).map (fun p => ('\\' :: p.1, p.2))
        else if e = 'b' then (parseStrAux r2).map (fun p => (Char.ofNat 8 :: p.1, p.2))
        else if e = 't' then (parseStrAux r2).map (fun p => (Char.ofNat 9 :: p.1, p.2))
        else if e = 'n' then (parseStrAux r2).map (fun p => (Char.ofNat 10 :: p.1, p.2))
        else if e = 'f' then (parseStrAux r2).map (fun p => (Char.ofNat 12 :: p.1, p.2))
        else if e = 'r' then (parseStrAux r2).map (fun p => (Char.ofNat 13 :: p.1, p.2))
        else if e = 'u' then
          match r2 with
          | h1 :: h2 :: h3 :: h4 :: r3 =>
            match hexVal h1, hexVal h2, hexVal h3, hexVal h4 with
            | some v1, some v2, some v3, some v4 =>
              (parseStrAux r3).map
                (fun p => (Char.ofNat (4096 * v1 + 256 * v2 + 16 * v3 + v4) :: p.1, p.2))
            | _, _, _, _ => none
          | _ => none
        else none
    else (parseStrAux r).map (fun p => (c :: p.1, p.2))
termination_by l => l.length
decreasing_by all_goals (simp_all [List.length_cons]; try omega)

/-- Read a JSON string token (leading whitespace allowed). -/
def parseJString (l : List Char) : Option (List Char × List Char) :=
  match skipWs l with
  | c :: r => if c = '"' then parseStrAux r else none
  | [] => none

/-- ASCII decimal digit test. -/
def isDigitChar (c : Char) : Bool := '0' ≤ c && c ≤ '9'

/-- Consume a maximal run of decimal digits, folding them onto `acc`. -/
def parseNatAux : List Char → Nat → Nat × List Char
  | [], acc => (acc, [])
  | c :: r, acc =>
    if isDigitChar c then parseNatAux r (10 * acc + (c.toNat - 48)) else (acc, c :: r)

/-- True when the input does not begin with a decimal digit, so a maximal
digit run ends here. -/
def noDigitHead : List Char → Bool
  | [] => true
  | c :: _ => !isDigitChar c

/-- Read a non-negative decimal integer token (leading whitespace allowed). -/
def parseNat (l : List Char) : Option (Nat × List Char) :=
  match skipWs l with
  | c :: r => if isDigitChar c then some (parseNatAux r (c.toNat - 48)) else none
  | [] => none

/-- Case split on a character list, continuation style (used by the fueled
parsers below, where a direct `match` on an applied function is awkward). -/
def caseList {α : Type} (l : List Char) (fnil : Option α)
    (fcons : Char → List Char → Option α) : Option α :=
  match l with
  | [] => fnil
  | c :: r => fcons c r

/-- Expect the punctuation character `c` (leading whitespace allowed). -/
def expectChar (c : Char) (l : List Char) : Option (List Char) :=
  match skipWs l with
  | c' :: r => if c' = c then some r else none
  | [] => none

mutual

/-- Read one serialized table-of-contents entry: an object with the keys
`title`, `page` and `nodes` in that order. `fuel` bounds the nesting depth. -/
def parseNode : Nat → List Char → Option (TocNode × List Char)
  | 0, _ => none
  | f + 1, l =>
    (expectChar '{' l).bind fun l1 =>
    (parseJString l1).bind fun p1 =>
    if p1.1 ≠ "title".data then none else
    (expectChar ':' p1.2).bind fun l3 =>
    (parseJString l3).bind fun pt =>
    (expectChar ',' pt.2).bind fun l5 =>
    (parseJString l5).bind fun p2 =>
    if p2.1 ≠ "page".data then none else
    (expectChar ':' p2.2).bind fun l7 =>
    (parseNat l7).bind fun pn =>
    (expectChar ',' pn.2).bind fun l9 =>
    (parseJString l9).bind fun p3 =>
    if p3.1 ≠ "nodes".data then none else
    (expectChar ':' p3.2).bind fun l11 =>
    (parseToc f l11).bind fun pns =>
    (expectChar '}' pns.2).bind fun l13 =>
    some (TocNode.mk (String.mk pt.1) pn.1 pns.1, l13)
termination_by f _ => f

/-- Read a serialized list of entries, starting at its opening bracket. -/
def parseToc : Nat → List Char → Option (List TocNode × List Char)
  | 0, _ => none
  | f + 1, l =>
    (expectChar '[' l).bind fun l1 =>
    caseList (skipWs l1) none fun c r =>
      if c = ']' then some ([], r)
      else
        (parseNode f (c :: r)).bind fun pt =>
        (parseTocTail f pt.2).bind fun pr =>
        some (pt.1 :: pr.1, pr.2)
termination_by f _ => f

/-- Read the continuation of a non-empty serialized list: either the closing
bracket or a comma followed by the next entry. -/
def parseTocTail : Nat → List Char → Option (List TocNode × List Char)
  | 0, _ => none
  | f + 1, l =>
    caseList (skipWs l) none fun c r =>
      if c = ']' then some ([], r)
      else if c = ',' then
        (parseNode f r).bind fun pt =>
        (parseTocTail f pt.2).bind fun pr =>
        some (pt.1 :: pr.1, pr.2)
      else none
termination_by f _ => f

end

mutual

/-- Fuel sufficient to parse one serialized entry. -/
def muN : TocNode → Nat
  | .mk _ _ nodes => muT nodes + 1

/-- Fuel sufficient to parse a serialized entry list. -/
def muT : List TocNode → Nat
  | [] => 1
  | t :: ts => muN t + muT ts

end

/-- Deserialize a complete document: parse the top-level list and require that
nothing but whitespace follows, with fuel drawn from the input length. -/
def jsonLoads (s : String) : Option (List TocNode) :=
  match parseToc (s.data.length + 1) s.data with
  | some (ts, rest) => if skipWs rest = [] then some ts else none
  | none => none

/-! ## Sanitization lemmas -/

theorem pyLower_data (s : String) : (pyLower s).data = s.data.map pyToLower := rfl

theorem lower_append_pdf (base : String) :
    pyEndswith (pyLower (base ++ ".pdf")) ".pdf" = true := by
  simp [pyEndswith, pyLower, String.data_append, List.map_append, List.isSuffixOf]
  refine ⟨?_, ?_, ?_, ?_⟩ <;> decide

theorem safeNameBase_ne_empty (filename : String) : safeNameBase filename ≠ "" := by
  unfold safeNameBase
  by_cases h : String.mk (filename.data.filter allowedChar) = ""
  · simp [h]
  · simp [h]

theorem append_pdf_ne_empty (base : String) : base ++ ".pdf" ≠ "" := by
  intro h
  have := congrArg String.data h
  simp [String.data_append] at this

theorem safeName_ne_empty (filename : String) : safeName filename ≠ "" := by
  unfold safeName
  by_cases h : pyEndswith (pyLower (safeNameBase filename)) ".pdf" = true
  · simpa [h] using safeNameBase_ne_empty filename
  · simp only [Bool.not_eq_true] at h
    simp [h, append_pdf_ne_empty]

theorem safeName_ends_pdf (filename : String) :
    pyEndswith (pyLower (safeName filename)) ".pdf" = true := by
  unfold safeName
  by_cases h : pyEndswith (pyLower (safeNameBase filename)) ".pdf" = true
  · simp [h]
  · simp only [Bool.not_eq_true] at h
    simp [h, lower_append_pdf]

theorem safeNameBase_allowed (filename : String) :
    ∀ c ∈ (safeNameBase filename).data, allowedChar c = true := by
  unfold safeNameBase
  by_cases h : String.mk (filename.data.filter allowedChar) = ""
  · simp only [h, if_pos]
    decide
  · simp only [h, if_neg, ite_false]
    intro c hc
    exact List.of_mem_filter hc

theorem safeName_allowed (filename : String) :
    ∀ c ∈ (safeName filename).data, allowedChar c = true := by
  unfold safeName
  by_cases h : pyEndswith (pyLower (safeNameBase filename)) ".pdf" = true
  · simpa [h] using safeNameBase_allowed filename
  · simp only [Bool.not_eq_true] at h
    simp only [h, Bool.false_eq_true, ite_false, String.data_append]
    intro c hc
    rcases List.mem_append.1 hc with hl | hr
    · exact safeNameBase_allowed filename c hl
    · have hall : ∀ d ∈ ([ '.', 'p', 'd', 'f'] : List Char), allowedChar d = true := by decide
      exact hall c hr

/-! ## Handler branch lemmas -/

theorem run_invalid (extract : String → Except String (List TocNode))
    (freshDir : String) (writeErr : Option String) (cleanupOk : Bool)
    (req : Request) (fs : FS)
    (h : pyEndswith (pyLower (pyOr req.filename "unknown")) ".pdf" = false) :
    run extract freshDir writeErr cleanupOk req fs =
      { response := .httpError 400 "File must have a .pdf extension",
        fs := fs,
        events := [.logWarning ("Rejected non-PDF file: " ++ pyOr req.filename "unknown")] } := by
  simp [run, h]

theorem run_stage_err (extract : String → Except String (List TocNode))
    (freshDir : String) (msg : String) (cleanupOk : Bool)
    (req : Request) (fs : FS)
    (h : pyEndswith (pyLower (pyOr req.filename "unknown")) ".pdf" = true)
    (hfresh : pyJoin freshDir (safeName (pyOr req.filename "unknown")) ∉ fs.files) :
    run extract freshDir (some msg) cleanupOk req fs =
      { response := .httpError 500 msg,
        fs := if cleanupOk then fs else { fs with dirs := freshDir :: fs.dirs },
        events :=
          [Event.readContent,
           Event.logInfo ("Request received: filename=" ++ pyOr req.filename "unknown" ++
             ", size_bytes=" ++ toString req.content.length),
           Event.mkdir freshDir,
           Event.logError ("Request failed: " ++ msg)] ++
          (if cleanupOk then [Event.rmdir freshDir]
           else [Event.logWarning "Cleanup temp dir failed"]) } := by
  cases cleanupOk <;> simp [run, h, cleanupBlock, hfresh]

theorem run_valid_ok (extract : String → Except String (List TocNode))
    (freshDir : String) (cleanupOk : Bool) (req : Request) (fs : FS)
    (toc : List TocNode)
    (h : pyEndswith (pyLower (pyOr req.filename "unknown")) ".pdf" = true)
    (he : extract (pyJoin freshDir (safeName (pyOr req.filename "unknown"))) = .ok toc) :
    run extract freshDir none cleanupOk req fs =
      { response := .ok 200 (pyJsonDumps toc) "application/json",
        fs := if cleanupOk then fs
              else { dirs := freshDir :: fs.dirs,
                     files := pyJoin freshDir (safeName (pyOr req.filename "unknown")) :: fs.files },
        events :=
          [Event.readContent,
           Event.logInfo ("Request received: filename=" ++ pyOr req.filename "unknown" ++
             ", size_bytes=" ++ toString req.content.length),
           Event.mkdir freshDir,
           Event.writeFile (pyJoin freshDir (safeName (pyOr req.filename "unknown"))),
           Event.logInfo ("Processing started: " ++ pyOr req.filename "unknown"),
           Event.callExtract (pyJoin freshDir (safeName (pyOr req.filename "unknown"))),
           Event.logInfo "PageIndex finished",
           Event.logInfo ("Request finished: " ++ pyOr req.filename "unknown")] ++
          (if cleanupOk then
             [Event.unlink (pyJoin freshDir (safeName (pyOr req.filename "unknown"))),
              Event.rmdir freshDir]
           else [Event.logWarning "Cleanup temp dir failed"]) } := by
  cases cleanupOk <;> simp [run, h, he, cleanupBlock]

theorem run_extract_err (extract : String → Except String (List TocNode))
    (freshDir : String) (cleanupOk : Bool) (req : Request) (fs : FS)
    (e : String)
    (h : pyEndswith (pyLower (pyOr req.filename "unknown")) ".pdf" = true)
    (he : extract (pyJoin freshDir (safeName (pyOr req.filename "unknown"))) = .error e) :
    run extract freshDir none cleanupOk req fs =
      { response := .httpError 500 e,
        fs := if cleanupOk then fs
              else { dirs := freshDir :: fs.dirs,
                     files := pyJoin freshDir (safeName (pyOr req.filename "unknown")) :: fs.files },
        events :=
          [Event.readContent,
           Event.logInfo ("Request received: filename=" ++ pyOr req.filename "unknown" ++
             ", size_bytes=" ++ toString req.content.length),
           Event.mkdir freshDir,
           Event.writeFile (pyJoin freshDir (safeName (pyOr req.filename "unknown"))),
           Event.logInfo ("Processing started: " ++ pyOr req.filename "unknown"),
           Event.callExtract (pyJoin freshDir (safeName (pyOr req.filename "unknown"))),
           Event.logInfo "PageIndex finished",
           Event.logError ("Request failed: " ++ e)] ++
          (if cleanupOk then
             [Event.unlink (pyJoin freshDir (safeName (pyOr req.filename "unknown"))),
              Event.rmdir freshDir]
           else [Event.logWarning "Cleanup temp dir failed"]) } := by
  cases cleanupOk <;> simp [run, h, he, cleanupBlock]

/-! ## Claim theorems (without the JSON round trip) -/


theorem run_response_stage_err (extract : String → Except String (List TocNode))
    (freshDir : String) (msg : String) (cleanupOk : Bool) (req : Request) (fs : FS)
    (h : pyEndswith (pyLower (pyOr req.filename "unknown")) ".pdf" = true) :
    (run extract freshDir (some msg) cleanupOk req fs).response = .httpError 500 msg := by
  simp only [run, h]
  rcases hc : cleanupBlock cleanupOk (some freshDir)
      (some (pyJoin freshDir (safeName (pyOr req.filename "unknown"))))
      { fs with dirs := freshDir :: fs.dirs } with ⟨a, b⟩
  simp [hc]



/-- C1: on every exit path of the handler the staged temporary file and its
containing directory have been removed when cleanup succeeds, the response is
the same whether or not cleanup succeeds, and a cleanup failure after a
staging path only produces a warning log entry. -/
theorem claim_C1 (extract : String → Except String (List TocNode))
    (freshDir : String) (writeErr : Option String) (cleanupOk : Bool)
    (req : Request) (fs : FS)
    (hfresh : pyJoin freshDir (safeName (pyOr req.filename "unknown")) ∉ fs.files) :
    (run extract freshDir writeErr true req fs).fs = fs
    ∧ (run extract freshDir writeErr cleanupOk req fs).response
        = (run extract freshDir writeErr true req fs).response
    ∧ (pyEndswith (pyLower (pyOr req.filename "unknown")) ".pdf" = true →
        Event.logWarning "Cleanup temp dir failed"
          ∈ (run extract freshDir writeErr false req fs).events) := by
  by_cases h : pyEndswith (pyLower (pyOr req.filename "unknown")) ".pdf" = true
  · cases writeErr with
    | some msg =>
        refine ⟨?_, ?_, ?_⟩ <;>
          simp [run_stage_err extract freshDir msg true req fs h hfresh,
                run_stage_err extract freshDir msg false req fs h hfresh,
                run_stage_err extract freshDir msg cleanupOk req fs h hfresh]
    | none =>
        cases he : extract (pyJoin freshDir (safeName (pyOr req.filename "unknown"))) with
        | ok toc =>
            refine ⟨?_, ?_, ?_⟩ <;>
              simp [run_valid_ok extract freshDir true req fs toc h he,
                    run_valid_ok extract freshDir false req fs toc h he,
                    run_valid_ok extract freshDir cleanupOk req fs toc h he]
        | error e =>
            refine ⟨?_, ?_, ?_⟩ <;>
              simp [run_extract_err extract freshDir true req fs e h he,
                    run_extract_err extract freshDir false req fs e h he,
                    run_extract_err extract freshDir cleanupOk req fs e h he]
  · simp only [Bool.not_eq_true] at h
    refine ⟨?_, ?_, ?_⟩ <;>
      simp [run_invalid extract freshDir writeErr true req fs h,
            run_invalid extract freshDir writeErr false req fs h,
            run_invalid extract freshDir writeErr cleanupOk req fs h, h]

/-- C1 evaluated at a concrete request. -/
theorem claim_C1_witness :
    (run (fun _ => .ok []) "ptmp" none true { filename := some "a.pdf", content := [] }
        ⟨[], []⟩).fs = ⟨[], []⟩ :=
  (claim_C1 (fun _ => .ok []) "ptmp" none true { filename := some "a.pdf", content := [] }
    ⟨[], []⟩ (by decide)).1

/-- C2: a filename that does not end in `.pdf` case-insensitively yields the
400 response with detail `File must have a .pdf extension`; a filename that
does end in `.pdf` case-insensitively never yields a 400. -/
theorem claim_C2 (extract : String → Except String (List TocNode))
    (freshDir : String) (writeErr : Option String) (cleanupOk : Bool)
    (req : Request) (fs : FS) :
    (pyEndswith (pyLower (pyOr req.filename "unknown")) ".pdf" = false →
      (run extract freshDir writeErr cleanupOk req fs).response
        = .httpError 400 "File must have a .pdf extension")
    ∧ (pyEndswith (pyLower (pyOr req.filename "unknown")) ".pdf" = true →
      ∀ d, (run extract freshDir writeErr cleanupOk req fs).response ≠ .httpError 400 d) := by
  constructor
  · intro h
    simp [run_invalid extract freshDir writeErr cleanupOk req fs h]
  · intro h d
    cases writeErr with
    | some msg =>
        simp [run_response_stage_err extract freshDir msg cleanupOk req fs h]
    | none =>
        cases he : extract (pyJoin freshDir (safeName (pyOr req.filename "unknown"))) with
        | ok toc => simp [run_valid_ok extract freshDir cleanupOk req fs toc h he]
        | error e => simp [run_extract_err extract freshDir cleanupOk req fs e h he]

/-- C2 evaluated at `notes.txt` and `a.PDF`. -/
theorem claim_C2_witness :
    (run (fun _ => .ok []) "ptmp" none true { filename := some "notes.txt", content := [] }
        ⟨[], []⟩).response = .httpError 400 "File must have a .pdf extension"
    ∧ (run (fun _ => .ok []) "ptmp" none true { filename := some "a.PDF", content := [] }
        ⟨[], []⟩).response ≠ .httpError 400 "File must have a .pdf extension" :=
  ⟨(claim_C2 (fun _ => .ok []) "ptmp" none true { filename := some "notes.txt", content := [] }
      ⟨[], []⟩).1 (by decide),
   (claim_C2 (fun _ => .ok []) "ptmp" none true { filename := some "a.PDF", content := [] }
      ⟨[], []⟩).2 (by decide) _⟩



/-- C3 counterexample: for `a:b.pdf` the staged base name is the filtered
string `ab.pdf`, which is neither the original filename nor the generic
fallback `upload.pdf` the claim says is substituted. -/
theorem claim_C3_cex :
    safeNameBase "a:b.pdf" = "ab.pdf"
    ∧ safeNameBase "a:b.pdf" ≠ "a:b.pdf"
    ∧ safeNameBase "a:b.pdf" ≠ "upload.pdf" := by decide

/-- C3 amended: the staged base name equals the original filename when the
original is non-empty and made entirely of allowed characters; otherwise the
disallowed characters are removed one by one, and the generic fallback
`upload.pdf` is used only when nothing remains after filtering. -/
theorem claim_C3 (filename : String) :
    (filename ≠ "" → (∀ c ∈ filename.data, allowedChar c = true) →
      safeNameBase filename = filename)
    ∧ (filename.data.filter allowedChar ≠ [] →
        (safeNameBase filename).data = filename.data.filter allowedChar)
    ∧ (filename.data.filter allowedChar = [] → safeNameBase filename = "upload.pdf") := by
  refine ⟨?_, ?_, ?_⟩
  · intro hne hall
    have hf : filename.data.filter allowedChar = filename.data := List.filter_eq_self.mpr hall
    unfold safeNameBase
    simp only [hf]
    have : String.mk filename.data = filename := rfl
    rw [this]
    simp [hne]
  · intro hne
    unfold safeNameBase
    have : String.mk (filename.data.filter allowedChar) ≠ "" := by
      intro h
      exact hne (congrArg String.data h)
    simp [this]
  · intro hemp
    unfold safeNameBase
    simp [hemp]

/-- C3 amended claim evaluated at an all-allowed filename. -/
theorem claim_C3_witness : safeNameBase "ab.pdf" = "ab.pdf" :=
  (claim_C3 "ab.pdf").1 (by decide) (by decide)

/-- C4: an exception raised while staging or during extraction yields a 500
response whose detail is the string representation of the exception, and the
temporary artifacts are still removed. -/
theorem claim_C4 (extract : String → Except String (List TocNode))
    (freshDir : String) (req : Request) (fs : FS)
    (hfresh : pyJoin freshDir (safeName (pyOr req.filename "unknown")) ∉ fs.files)
    (h : pyEndswith (pyLower (pyOr req.filename "unknown")) ".pdf" = true) :
    (∀ msg, (run extract freshDir (some msg) true req fs).response = .httpError 500 msg
      ∧ (run extract freshDir (some msg) true req fs).fs = fs)
    ∧ (∀ e, extract (pyJoin freshDir (safeName (pyOr req.filename "unknown"))) = .error e →
        (run extract freshDir none true req fs).response = .httpError 500 e
        ∧ (run extract freshDir none true req fs).fs = fs) := by
  constructor
  · intro msg
    simp [run_stage_err extract freshDir msg true req fs h hfresh]
  · intro e he
    simp [run_extract_err extract freshDir true req fs e h he]

/-- C4 evaluated at a concrete failing extraction. -/
theorem claim_C4_witness :
    (run (fun _ => .error "boom") "ptmp" none true
        { filename := some "a.pdf", content := [] } ⟨[], []⟩).response
      = .httpError 500 "boom" :=
  ((claim_C4 (fun _ => .error "boom") "ptmp" { filename := some "a.pdf", content := [] }
      ⟨[], []⟩ (by decide) (by decide)).2 "boom" rfl).1

/-- C5: a validation failure is detected before any staging side effect: the
filesystem is unchanged, no upload bytes are read, no directory is created,
no file is written, and the response is the 400 validation error. -/
theorem claim_C5 (extract : String → Except String (List TocNode))
    (freshDir : String) (writeErr : Option String) (cleanupOk : Bool)
    (req : Request) (fs : FS)
    (h : pyEndswith (pyLower (pyOr req.filename "unknown")) ".pdf" = false) :
    (run extract freshDir writeErr cleanupOk req fs).fs = fs
    ∧ Event.readContent ∉ (run extract freshDir writeErr cleanupOk req fs).events
    ∧ (∀ d, Event.mkdir d ∉ (run extract freshDir writeErr cleanupOk req fs).events)
    ∧ (∀ p, Event.writeFile p ∉ (run extract freshDir writeErr cleanupOk req fs).events)
    ∧ (run extract freshDir writeErr cleanupOk req fs).response
        = .httpError 400 "File must have a .pdf extension" := by
  refine ⟨?_, ?_, ?_, ?_, ?_⟩ <;>
    simp [run_invalid extract freshDir writeErr cleanupOk req fs h]

/-- C5 evaluated at `notes.txt`. -/
theorem claim_C5_witness :
    (run (fun _ => .ok []) "ptmp" none true { filename := some "notes.txt", content := [0, 1] }
        ⟨[], []⟩).fs = ⟨[], []⟩
    ∧ Event.readContent ∉ (run (fun _ => .ok []) "ptmp" none true
        { filename := some "notes.txt", content := [0, 1] } ⟨[], []⟩).events :=
  ⟨(claim_C5 (fun _ => .ok []) "ptmp" none true { filename := some "notes.txt", content := [0, 1] }
      ⟨[], []⟩ (by decide)).1,
   (claim_C5 (fun _ => .ok []) "ptmp" none true { filename := some "notes.txt", content := [0, 1] }
      ⟨[], []⟩ (by decide)).2.1⟩

/-- C6: for every uploaded filename the final staged name is non-empty and
ends in `.pdf` under case-insensitive comparison. -/
theorem claim_C6 (filename : String) :
    safeName filename ≠ "" ∧ pyEndswith (pyLower (safeName filename)) ".pdf" = true :=
  ⟨safeName_ne_empty filename, safeName_ends_pdf filename⟩

/-- C6 evaluated at a filename made entirely of disallowed characters. -/
theorem claim_C6_witness :
    pyEndswith (pyLower (safeName "???")) ".pdf" = true :=
  (claim_C6 "???").2

/-- C9: an absent or empty claimed filename is replaced by `unknown`, which
fails the extension check, so the request is rejected exactly like an
explicit non-PDF filename. -/
theorem claim_C9 (extract : String → Except String (List TocNode))
    (freshDir : String) (writeErr : Option String) (cleanupOk : Bool)
    (req : Request) (fs : FS)
    (h : req.filename = none ∨ req.filename = some "") :
    pyOr req.filename "unknown" = "unknown"
    ∧ run extract freshDir writeErr cleanupOk req fs =
      { response := .httpError 400 "File must have a .pdf extension",
        fs := fs,
        events := [.logWarning "Rejected non-PDF file: unknown"] } := by
  have hu : pyOr req.filename "unknown" = "unknown" := by
    rcases h with h | h <;> simp [pyOr, h]
  refine ⟨hu, ?_⟩
  have hv : pyEndswith (pyLower (pyOr req.filename "unknown")) ".pdf" = false := by
    rw [hu]; decide
  rw [run_invalid extract freshDir writeErr cleanupOk req fs hv, hu]
  rw [show ("Rejected non-PDF file: " ++ "unknown" : String) = "Rejected non-PDF file: unknown" from by decide]

/-- C9 evaluated at an absent filename. -/
theorem claim_C9_witness :
    run (fun _ => .ok []) "ptmp" none true { filename := none, content := [] } ⟨[], []⟩ =
      { response := .httpError 400 "File must have a .pdf extension",
        fs := ⟨[], []⟩,
        events := [.logWarning "Rejected non-PDF file: unknown"] } :=
  (claim_C9 (fun _ => .ok []) "ptmp" none true { filename := none, content := [] } ⟨[], []⟩
    (Or.inl rfl)).2

/-- C10: the sanitized staged name contains no path separator, so the staged
path is always the fresh temporary directory joined with a non-empty
separator-free file name: a direct child of that directory. -/
theorem claim_C10 (filename dir : String) :
    '/' ∉ (safeName filename).data
    ∧ '\\' ∉ (safeName filename).data
    ∧ safeName filename ≠ ""
    ∧ pyJoin dir (safeName filename) = dir ++ "/" ++ safeName filename := by
  refine ⟨?_, ?_, safeName_ne_empty filename, rfl⟩
  · intro hmem
    have := safeName_allowed filename _ hmem
    simp [allowedChar, pyIsAlnum] at this
  · intro hmem
    have := safeName_allowed filename _ hmem
    simp [allowedChar, pyIsAlnum] at this

/-- C10 evaluated at a filename with path separators. -/
theorem claim_C10_witness :
    pyJoin "base" (safeName "../../etc/passwd") =
      "base" ++ "/" ++ safeName "../../etc/passwd" :=
  (claim_C10 "../../etc/passwd" "base").2.2.2

/-- C7: on success the response has status 200, media type
`application/json`, and its body is the extraction result serialized by the
indent-2, `ensure_ascii=False` serializer; moreover that serializer passes
every printable character, non-ASCII included, through unescaped. -/
theorem claim_C7 (extract : String → Except String (List TocNode))
    (freshDir : String) (cleanupOk : Bool) (req : Request) (fs : FS)
    (toc : List TocNode)
    (h : pyEndswith (pyLower (pyOr req.filename "unknown")) ".pdf" = true)
    (he : extract (pyJoin freshDir (safeName (pyOr req.filename "unknown"))) = .ok toc) :
    (run extract freshDir none cleanupOk req fs).response
      = .ok 200 (pyJsonDumps toc) "application/json"
    ∧ (∀ c : Char, 32 ≤ c.toNat → c ≠ '"' → c ≠ '\\' → escChar c = [c]) := by
  constructor
  · simp [run_valid_ok extract freshDir cleanupOk req fs toc h he]
  · intro c h32 hq hb
    unfold escChar
    have h8 : c ≠ Char.ofNat 8 := by
      intro hh; rw [hh] at h32; exact absurd h32 (by decide)
    have h9 : c ≠ Char.ofNat 9 := by
      intro hh; rw [hh] at h32; exact absurd h32 (by decide)
    have h10 : c ≠ Char.ofNat 10 := by
      intro hh; rw [hh] at h32; exact absurd h32 (by decide)
    have h12 : c ≠ Char.ofNat 12 := by
      intro hh; rw [hh] at h32; exact absurd h32 (by decide)
    have h13 : c ≠ Char.ofNat 13 := by
      intro hh; rw [hh] at h32; exact absurd h32 (by decide)
    simp [hq, hb, h8, h9, h10, h12, h13, Nat.not_lt.mpr h32]

/-- C7 evaluated at a concrete successful run. -/
theorem claim_C7_witness :
    (run (fun _ => .ok [TocNode.mk "Introduction" 1 []]) "ptmp" none true
        { filename := some "report.pdf", content := [] } ⟨[], []⟩).response
      = .ok 200 (pyJsonDumps [TocNode.mk "Introduction" 1 []]) "application/json" :=
  (claim_C7 (fun _ => .ok [TocNode.mk "Introduction" 1 []]) "ptmp" true
    { filename := some "report.pdf", content := [] } ⟨[], []⟩
    [TocNode.mk "Introduction" 1 []] (by decide) rfl).1


/-! ## JSON round-trip lemmas -/


theorem skipWs_cons_ws (c : Char) (l : List Char) (h : isWs c = true) :
    skipWs (c :: l) = skipWs l := by simp [skipWs, h]

theorem skipWs_cons_not_ws (c : Char) (l : List Char) (h : isWs c = false) :
    skipWs (c :: l) = c :: l := by simp [skipWs, h]

theorem skipWs_ws_append (w l : List Char) (h : ∀ c ∈ w, isWs c = true) :
    skipWs (w ++ l) = skipWs l := by
  induction w with
  | nil => simp
  | cons c w ih =>
      rw [List.cons_append, skipWs_cons_ws c _ (h c (List.mem_cons_self c w))]
      exact ih (fun d hd => h d (List.mem_cons_of_mem c hd))

theorem skipWs_nl (k : Nat) (l : List Char) : skipWs (nl k ++ l) = skipWs l := by
  apply skipWs_ws_append
  intro c hc
  simp only [nl, List.mem_cons, List.mem_replicate] at hc
  rcases hc with h | h
  · subst h; decide
  · rw [h.2]; decide

theorem skipWs_space (l : List Char) : skipWs (' ' :: l) = skipWs l :=
  skipWs_cons_ws ' ' l (by decide)

theorem parseJString_congr (l l2 : List Char) (h : skipWs l = skipWs l2) :
    parseJString l = parseJString l2 := by
  unfold parseJString
  rw [h]

theorem parseNat_congr (l l2 : List Char) (h : skipWs l = skipWs l2) :
    parseNat l = parseNat l2 := by
  unfold parseNat
  rw [h]

theorem expectChar_congr (c : Char) (l l2 : List Char) (h : skipWs l = skipWs l2) :
    expectChar c l = expectChar c l2 := by
  unfold expectChar
  rw [h]

theorem parseToc_congr (f : Nat) (l l2 : List Char) (h : skipWs l = skipWs l2) :
    parseToc f l = parseToc f l2 := by
  cases f with
  | zero => simp [parseToc]
  | succ f =>
      simp only [parseToc]
      rw [expectChar_congr '[' l l2 h]

theorem hexVal_hexDigit : ∀ x : Nat, x < 16 → hexVal (hexDigit x) = some x := by decide

theorem parseStrAux_escChar (c : Char) (l : List Char) :
    parseStrAux (escChar c ++ l) = (parseStrAux l).map (fun p => (c :: p.1, p.2)) := by
  by_cases h1 : c = '"'
  · subst h1
    rw [show escChar '"' = ['\\', '"'] from by decide, List.cons_append, List.cons_append,
      List.nil_append, parseStrAux.eq_def]
    simp
  by_cases h2 : c = '\\'
  · subst h2
    rw [show escChar '\\' = ['\\', '\\'] from by decide, List.cons_append, List.cons_append,
      List.nil_append, parseStrAux.eq_def]
    simp
  by_cases h3 : c = Char.ofNat 8
  · subst h3
    rw [show escChar (Char.ofNat 8) = ['\\', 'b'] from by decide, List.cons_append,
      List.cons_append, List.nil_append, parseStrAux.eq_def]
    simp
  by_cases h4 : c = Char.ofNat 9
  · subst h4
    rw [show escChar (Char.ofNat 9) = ['\\', 't'] from by decide, List.cons_append,
      List.cons_append, List.nil_append, parseStrAux.eq_def]
    simp
  by_cases h5 : c = Char.ofNat 10
  · subst h5
    rw [show escChar (Char.ofNat 10) = ['\\', 'n'] from by decide, List.cons_append,
      List.cons_append, List.nil_append, parseStrAux.eq_def]
    simp
  by_cases h6 : c = Char.ofNat 12
  · subst h6
    rw [show escChar (Char.ofNat 12) = ['\\', 'f'] from by decide, List.cons_append,
      List.cons_append, List.nil_append, parseStrAux.eq_def]
    simp
  by_cases h7 : c = Char.ofNat 13
  · subst h7
    rw [show escChar (Char.ofNat 13) = ['\\', 'r'] from by decide, List.cons_append,
      List.cons_append, List.nil_append, parseStrAux.eq_def]
    simp
  by_cases h8 : c.toNat < 32
  · have hv3 : hexVal (hexDigit (c.toNat / 16)) = some (c.toNat / 16) :=
      hexVal_hexDigit _ (by omega)
    have hv4 : hexVal (hexDigit (c.toNat % 16)) = some (c.toNat % 16) :=
      hexVal_hexDigit _ (by omega)
    have harith : 16 * (c.toNat / 16) + c.toNat % 16 = c.toNat := by omega
    rw [show escChar c = ['\\', 'u', '0', '0', hexDigit (c.toNat / 16),
        hexDigit (c.toNat % 16)] from by
      rw [escChar.eq_def]
      simp [h1, h2, h3, h4, h5, h6, h7, h8]]
    simp only [List.cons_append, List.nil_append]
    rw [parseStrAux.eq_def]
    simp [hv3, hv4, show hexVal '0' = some 0 from by decide]
    simp only [show 16 * (c.toNat / 16) + c.toNat % 16 = c.toNat from by omega,
      Char.ofNat_toNat]
  · rw [show escChar c = [c] from by
      rw [escChar.eq_def]
      simp [h1, h2, h3, h4, h5, h6, h7, h8], List.cons_append, List.nil_append,
      parseStrAux.eq_def]
    simp [h1, h2]



theorem parseStrAux_flat (cs : List Char) (l : List Char) :
    parseStrAux (cs.flatMap escChar ++ ('"' :: l)) = some (cs, l) := by
  induction cs with
  | nil =>
      rw [List.flatMap_nil, List.nil_append, parseStrAux.eq_def]
      simp
  | cons c cs ih =>
      rw [List.flatMap_cons, List.append_assoc, parseStrAux_escChar, ih]
      rfl

theorem parseJString_enc (s : String) (l : List Char) :
    parseJString (encString s ++ l) = some (s.data, l) := by
  unfold parseJString encString
  rw [List.cons_append, skipWs_cons_not_ws _ _ (by decide)]
  simp only [List.append_assoc, List.singleton_append]
  simp [parseStrAux_flat]

theorem parseJString_drop_nl (k : Nat) (x : List Char) :
    parseJString (nl k ++ x) = parseJString x :=
  parseJString_congr _ _ (skipWs_nl k x)

theorem parseJString_drop_space (x : List Char) :
    parseJString (' ' :: x) = parseJString x :=
  parseJString_congr _ _ (skipWs_space x)

theorem expectChar_cons (c : Char) (l : List Char) (h : isWs c = false) :
    expectChar c (c :: l) = some l := by
  unfold expectChar
  rw [skipWs_cons_not_ws _ _ h]
  simp

theorem expectChar_drop_nl (c : Char) (k : Nat) (x : List Char) :
    expectChar c (nl k ++ x) = expectChar c x :=
  expectChar_congr _ _ _ (skipWs_nl k x)

theorem parseNat_drop_space (x : List Char) : parseNat (' ' :: x) = parseNat x :=
  parseNat_congr _ _ (skipWs_space x)



theorem digit_char_props : ∀ m, m < 10 →
    isDigitChar (Char.ofNat (48 + m)) = true
    ∧ (Char.ofNat (48 + m)).toNat = 48 + m
    ∧ isWs (Char.ofNat (48 + m)) = false := by decide

theorem natDigits_all_digits (n : Nat) : ∀ c ∈ natDigits n, isDigitChar c = true := by
  induction n using Nat.strong_induction_on with
  | _ n ih =>
    rw [natDigits]
    by_cases h : n < 10
    · simp only [h, dite_true]
      intro c hc
      simp only [List.mem_singleton] at hc
      subst hc
      exact (digit_char_props n h).1
    · simp only [h, dite_false]
      intro c hc
      rcases List.mem_append.1 hc with h1 | h2
      · exact ih (n / 10) (Nat.div_lt_self (by omega) (by omega)) c h1
      · simp only [List.mem_singleton] at h2
        subst h2
        exact (digit_char_props (n % 10) (Nat.mod_lt _ (by omega))).1

theorem natDigits_ne_nil (n : Nat) : natDigits n ≠ [] := by
  rw [natDigits]
  by_cases h : n < 10
  · simp [h]
  · simp [h]

theorem natDigits_foldl (n : Nat) : ∀ acc : Nat,
    (natDigits n).foldl (fun a c => 10 * a + (c.toNat - 48)) acc
      = acc * 10 ^ (natDigits n).length + n := by
  induction n using Nat.strong_induction_on with
  | _ n ih =>
    intro acc
    rw [natDigits]
    by_cases h : n < 10
    · simp only [h, dite_true, List.foldl_cons, List.foldl_nil, List.length_singleton]
      rw [(digit_char_props n h).2.1]
      omega
    · simp only [h, dite_false, List.foldl_append, List.foldl_cons, List.foldl_nil,
        List.length_append, List.length_singleton]
      rw [ih (n / 10) (Nat.div_lt_self (by omega) (by omega)) acc,
        (digit_char_props (n % 10) (Nat.mod_lt _ (by omega))).2.1]
      have hgen : ∀ M : Nat, 10 * (M + n / 10) + (48 + n % 10 - 48) = M * 10 + n := by
        intro M
        omega
      rw [pow_succ, ← Nat.mul_assoc]
      exact hgen (acc * 10 ^ (natDigits (n / 10)).length)

theorem parseNatAux_digits_append (ds l : List Char) :
    (∀ c ∈ ds, isDigitChar c = true) → ∀ acc : Nat,
    parseNatAux (ds ++ l) acc
      = parseNatAux l (ds.foldl (fun a c => 10 * a + (c.toNat - 48)) acc) := by
  induction ds with
  | nil => intro _ acc; simp
  | cons c ds ih =>
      intro h acc
      have hc := h c (List.mem_cons_self c ds)
      rw [List.cons_append]
      conv_lhs => rw [parseNatAux.eq_def]
      simp only [hc, if_true, List.foldl_cons]
      exact ih (fun d hd => h d (List.mem_cons_of_mem c hd)) _

theorem parseNatAux_stop (l : List Char) (acc : Nat) (h : noDigitHead l = true) :
    parseNatAux l acc = (acc, l) := by
  cases l with
  | nil => rfl
  | cons c r =>
      simp only [noDigitHead, Bool.not_eq_true'] at h
      simp [parseNatAux, h]

theorem digit_not_ws (c : Char) (h : isDigitChar c = true) : isWs c = false := by
  unfold isWs
  by_cases h1 : c = ' '
  · subst h1; exact absurd h (by decide)
  by_cases h2 : c = '\n'
  · subst h2; exact absurd h (by decide)
  by_cases h3 : c = '\t'
  · subst h3; exact absurd h (by decide)
  by_cases h4 : c = '\r'
  · subst h4; exact absurd h (by decide)
  simp [h1, h2, h3, h4]

theorem parseNat_enc (n : Nat) (l : List Char) (h : noDigitHead l = true) :
    parseNat (natDigits n ++ l) = some (n, l) := by
  obtain ⟨c, ds, hcd⟩ := List.exists_cons_of_ne_nil (natDigits_ne_nil n)
  have hall := natDigits_all_digits n
  rw [hcd] at hall
  have hc : isDigitChar c = true := hall c (List.mem_cons_self c ds)
  have hfold := natDigits_foldl n 0
  rw [hcd] at hfold
  simp only [List.foldl_cons, Nat.mul_zero, Nat.zero_add, Nat.zero_mul, Nat.one_mul] at hfold
  unfold parseNat
  rw [hcd, List.cons_append, skipWs_cons_not_ws _ _ (digit_not_ws c hc)]
  simp only [hc, if_true]
  rw [parseNatAux_digits_append ds l (fun d hd => hall d (List.mem_cons_of_mem c hd)),
    parseNatAux_stop l _ h]
  rw [hfold]



theorem parseNode_congr (f : Nat) (l l2 : List Char) (h : skipWs l = skipWs l2) :
    parseNode f l = parseNode f l2 := by
  cases f with
  | zero => simp [parseNode]
  | succ f =>
      simp only [parseNode]
      rw [expectChar_congr '{' l l2 h]

theorem parseTocTail_congr (f : Nat) (l l2 : List Char) (h : skipWs l = skipWs l2) :
    parseTocTail f l = parseTocTail f l2 := by
  cases f with
  | zero => simp [parseTocTail]
  | succ f =>
      simp only [parseTocTail]
      rw [h]

theorem parseNode_drop_nl (f k : Nat) (x : List Char) :
    parseNode f (nl k ++ x) = parseNode f x :=
  parseNode_congr f _ _ (skipWs_nl k x)

theorem parseToc_drop_space (f : Nat) (x : List Char) :
    parseToc f (' ' :: x) = parseToc f x :=
  parseToc_congr f _ _ (skipWs_space x)

theorem muN_pos (t : TocNode) : 1 ≤ muN t := by
  cases t with
  | mk a b ns => simp [muN]

theorem muT_pos (ts : List TocNode) : 1 ≤ muT ts := by
  cases ts with
  | nil => simp [muT]
  | cons t ts =>
      have := muN_pos t
      simp [muT]
      omega

theorem stringMk_data (s : String) : String.mk s.data = s := rfl



theorem parse_enc (f : Nat) :
    (∀ t lvl rest, muN t ≤ f → parseNode f (encNode lvl t ++ rest) = some (t, rest))
    ∧ (∀ ts lvl rest, muT ts ≤ f → parseToc f (encToc lvl ts ++ rest) = some (ts, rest))
    ∧ (∀ ts lvlA lvlB rest, muT ts ≤ f →
        parseTocTail f (encTocRest lvlA ts ++ (nl lvlB ++ (']' :: rest)))
          = some (ts, rest)) := by
  induction f with
  | zero =>
      refine ⟨?_, ?_, ?_⟩
      · intro t lvl rest hmu
        exact absurd hmu (by have := muN_pos t; omega)
      · intro ts lvl rest hmu
        exact absurd hmu (by have := muT_pos ts; omega)
      · intro ts lvlA lvlB rest hmu
        exact absurd hmu (by have := muT_pos ts; omega)
  | succ f ih =>
      refine ⟨?_, ?_, ?_⟩
      · rintro ⟨title, page, nodes⟩ lvl rest hmu
        have hmuT : muT nodes ≤ f := by
          simp only [muN] at hmu
          omega
        have ihT := ih.2.1 nodes (lvl + 1) (nl lvl ++ ('}' :: rest)) hmuT
        simp only [encNode, List.append_assoc, List.cons_append, List.nil_append]
        simp only [parseNode]
        rw [expectChar_cons '{' _ (by decide)]
        simp only [Option.some_bind]
        rw [parseJString_drop_nl, parseJString_enc]
        simp only [Option.some_bind]
        simp only [ne_eq, not_true_eq_false, ite_false, if_false, reduceIte]
        rw [expectChar_cons ':' _ (by decide)]
        simp only [Option.some_bind]
        rw [parseJString_drop_space, parseJString_enc]
        simp only [Option.some_bind]
        rw [expectChar_cons ',' _ (by decide)]
        simp only [Option.some_bind]
        rw [parseJString_drop_nl, parseJString_enc]
        simp only [Option.some_bind]
        simp only [ne_eq, not_true_eq_false, ite_false, if_false, reduceIte]
        rw [expectChar_cons ':' _ (by decide)]
        simp only [Option.some_bind]
        rw [parseNat_drop_space, parseNat_enc page _ (by simp [noDigitHead, isDigitChar])]
        simp only [Option.some_bind]
        rw [expectChar_cons ',' _ (by decide)]
        simp only [Option.some_bind]
        rw [parseJString_drop_nl, parseJString_enc]
        simp only [Option.some_bind]
        simp only [ne_eq, not_true_eq_false, ite_false, if_false, reduceIte]
        rw [expectChar_cons ':' _ (by decide)]
        simp only [Option.some_bind]
        rw [parseToc_drop_space, ihT]
        simp only [Option.some_bind]
        rw [expectChar_drop_nl, expectChar_cons '}' _ (by decide)]
        simp only [Option.some_bind, stringMk_data]
      · rintro (_ | ⟨t, ts⟩) lvl rest hmu
        · simp only [encToc, List.cons_append, List.nil_append]
          simp only [parseToc]
          rw [expectChar_cons '[' _ (by decide)]
          simp only [Option.some_bind]
          rw [skipWs_cons_not_ws _ _ (by decide)]
          simp [caseList]
        · have hmuN : muN t ≤ f := by
            have := muT_pos ts
            simp only [muT] at hmu
            omega
          have hmuT : muT ts ≤ f := by
            have := muN_pos t
            simp only [muT] at hmu
            omega
          rcases t with ⟨a, b, ns⟩
          have ihN := ih.1 (TocNode.mk a b ns) (lvl + 1)
            (encTocRest (lvl + 1) ts ++ (nl lvl ++ (']' :: rest))) hmuN
          have ihTail := ih.2.2 ts (lvl + 1) lvl rest hmuT
          simp only [encToc, encNode, List.append_assoc, List.cons_append,
            List.nil_append] at ihN ⊢
          simp only [parseToc]
          rw [expectChar_cons '[' _ (by decide)]
          simp only [Option.some_bind]
          rw [skipWs_nl, skipWs_cons_not_ws _ _ (by decide)]
          simp only [caseList]
          rw [if_neg (by decide : ¬('{' = ']'))]
          rw [ihN]
          simp only [Option.some_bind]
          rw [ihTail]
          simp only [Option.some_bind]
      · rintro (_ | ⟨t, ts⟩) lvlA lvlB rest hmu
        · simp only [encTocRest, List.nil_append]
          simp only [parseTocTail]
          rw [skipWs_nl, skipWs_cons_not_ws _ _ (by decide)]
          simp [caseList]
        · have hmuN : muN t ≤ f := by
            have := muT_pos ts
            simp only [muT] at hmu
            omega
          have hmuT : muT ts ≤ f := by
            have := muN_pos t
            simp only [muT] at hmu
            omega
          have ihN := ih.1 t lvlA
            (encTocRest lvlA ts ++ (nl lvlB ++ (']' :: rest))) hmuN
          have ihTail := ih.2.2 ts lvlA lvlB rest hmuT
          simp only [encTocRest, List.append_assoc, List.cons_append,
            List.nil_append] at ihN ⊢
          simp only [parseTocTail]
          rw [skipWs_cons_not_ws _ _ (by decide)]
          simp only [caseList]
          rw [if_neg (by decide : ¬(',' = ']'))]
          simp only [if_true, ite_true, reduceIte]
          rw [parseNode_drop_nl, ihN]
          simp only [Option.some_bind]
          rw [ihTail]
          simp only [Option.some_bind]



theorem mu_le_len (n : Nat) :
    (∀ t lvl, muN t ≤ n → muN t ≤ (encNode lvl t).length)
    ∧ (∀ ts lvl, muT ts ≤ n → muT ts ≤ (encToc lvl ts).length)
    ∧ (∀ ts lvl, muT ts ≤ n → muT ts ≤ (encTocRest lvl ts).length + 1) := by
  induction n with
  | zero =>
      refine ⟨?_, ?_, ?_⟩
      · intro t lvl hmu
        exact absurd hmu (by have := muN_pos t; omega)
      · intro ts lvl hmu
        exact absurd hmu (by have := muT_pos ts; omega)
      · intro ts lvl hmu
        exact absurd hmu (by have := muT_pos ts; omega)
  | succ n ih =>
      refine ⟨?_, ?_, ?_⟩
      · rintro ⟨a, b, ns⟩ lvl hmu
        simp only [muN] at hmu ⊢
        have hns : muT ns ≤ n := by omega
        have h1 := ih.2.1 ns (lvl + 1) hns
        simp only [encNode, List.length_append, List.length_cons, nl,
          List.length_replicate]
        omega
      · rintro (_ | ⟨t, ts⟩) lvl hmu
        · simp [muT, encToc]
        · simp only [muT] at hmu ⊢
          have ht : muN t ≤ n := by
            have := muT_pos ts
            omega
          have hts : muT ts ≤ n := by
            have := muN_pos t
            omega
          have h1 := ih.1 t (lvl + 1) ht
          have h2 := ih.2.2 ts (lvl + 1) hts
          simp only [encToc, List.length_append, List.length_cons, nl,
            List.length_replicate]
          omega
      · rintro (_ | ⟨t, ts⟩) lvl hmu
        · simp [muT, encTocRest]
        · simp only [muT] at hmu ⊢
          have ht : muN t ≤ n := by
            have := muT_pos ts
            omega
          have hts : muT ts ≤ n := by
            have := muN_pos t
            omega
          have h1 := ih.1 t lvl ht
          have h2 := ih.2.2 ts lvl hts
          simp only [encTocRest, List.length_append, List.length_cons, nl,
            List.length_replicate]
          omega

theorem jsonLoads_dumps (ts : List TocNode) : jsonLoads (pyJsonDumps ts) = some ts := by
  unfold jsonLoads pyJsonDumps
  have hdata : (String.mk (encToc 0 ts)).data = encToc 0 ts := rfl
  rw [hdata]
  have hb : muT ts ≤ (encToc 0 ts).length := (mu_le_len (muT ts)).2.1 ts 0 (Nat.le_refl _)
  have hfuel : muT ts ≤ (encToc 0 ts).length + 1 := by omega
  have hp := (parse_enc ((encToc 0 ts).length + 1)).2.1 ts 0 [] hfuel
  rw [List.append_nil] at hp
  rw [hp]
  simp [skipWs]


/-- C8: for every successful run, the response body is the serialization of
the structure the extraction engine returned, and deserializing it yields
that structure back unchanged (nesting, order and page numbers included):
parse after serialize is the identity on the engine result. -/
theorem claim_C8 (extract : String → Except String (List TocNode))
    (freshDir : String) (cleanupOk : Bool) (req : Request) (fs : FS)
    (toc : List TocNode)
    (h : pyEndswith (pyLower (pyOr req.filename "unknown")) ".pdf" = true)
    (he : extract (pyJoin freshDir (safeName (pyOr req.filename "unknown"))) = .ok toc) :
    (run extract freshDir none cleanupOk req fs).response
      = .ok 200 (pyJsonDumps toc) "application/json"
    ∧ jsonLoads (pyJsonDumps toc) = some toc := by
  constructor
  · simp [run_valid_ok extract freshDir cleanupOk req fs toc h he]
  · exact jsonLoads_dumps toc

/-- C8 witness: the round trip evaluated on a concrete successful run. -/
theorem claim_C8_witness :
    (run (fun _ => .ok [TocNode.mk "Introduction" 1 [TocNode.mk "Background" 2 []]])
        "ptmp" none true { filename := some "report.pdf", content := [] }
        ⟨[], []⟩).response
      = .ok 200 (pyJsonDumps [TocNode.mk "Introduction" 1 [TocNode.mk "Background" 2 []]])
          "application/json"
    ∧ jsonLoads (pyJsonDumps [TocNode.mk "Introduction" 1 [TocNode.mk "Background" 2 []]])
      = some [TocNode.mk "Introduction" 1 [TocNode.mk "Background" 2 []]] :=
  claim_C8 (fun _ => .ok [TocNode.mk "Introduction" 1 [TocNode.mk "Background" 2 []]])
    "ptmp" true { filename := some "report.pdf", content := [] } ⟨[], []⟩
    [TocNode.mk "Introduction" 1 [TocNode.mk "Background" 2 []]] (by decide) rfl

end Api
